import Mathlib

/-!
Shallow embedding of `src/pan2players/main.go`, an Ebitengine demo that
performs stereo panning with two independent players.

The embedding covers:
* `SingleChannelStream.Read` (main.go:158-178): a filter that zeroes the
  bytes of one stereo channel in every complete 8-byte frame of the bytes
  returned by the underlying stream's read.  Bytes are modelled as `Nat`
  (no arithmetic is ever performed on byte values by the code).
* `Game.Update` (main.go:96-114) and `Game.initAudioIfNeeded`
  (main.go:58-90): the per-tick pan computation and the lazy audio setup.
  Go `float64` arithmetic (including `math.Cos` and `math.Min`) is
  modelled over the real numbers `ℝ`.
-/

namespace Pan2Players

/-- main.go:36-39, the `const` block. -/
def screenWidth : Nat := 640

/-- main.go:36-39, the `const` block. -/
def screenHeight : Nat := 480

/-- main.go:36-39, the `const` block. -/
def sampleRate : Nat := 48000

/-! ## Channel isolation filter (`SingleChannelStream`, main.go:153-185) -/

/-- One iteration of the loop body in `SingleChannelStream.Read`
(main.go:162-177): for the frame starting at byte offset `i`, zero bytes
`i+4 .. i+7` when `isLeft` (silence the right channel), else zero bytes
`i .. i+3` (silence the left channel).  `Array.setD` matches the Go slice
write in the in-bounds case; the loop guard keeps every write in bounds
(proved below via `zeroFramesChecked`). -/
def zeroFrame (isLeft : Bool) (p : Array Nat) (i : Nat) : Array Nat :=
  if isLeft then
    ((((p.setD (i+4) 0).setD (i+5) 0).setD (i+6) 0).setD (i+7) 0)
  else
    ((((p.setD i 0).setD (i+1) 0).setD (i+2) 0).setD (i+3) 0)

/-- The loop `for i := 0; i+8 <= n; i += 8` of `SingleChannelStream.Read`
(main.go:162-177), entered at offset `i`. -/
def zeroFrames (isLeft : Bool) (p : Array Nat) (i n : Nat) : Array Nat :=
  if i + 8 ≤ n then zeroFrames isLeft (zeroFrame isLeft p i) (i + 8) n else p
termination_by n - i
decreasing_by omega

/-- Bounds-checked version of `zeroFrame`: `none` when any of the four
byte writes of the frame at offset `i` would fall outside the buffer
(which in Go would panic). -/
def zeroFrameChecked (isLeft : Bool) (p : Array Nat) (i : Nat) : Option (Array Nat) :=
  if isLeft then
    if i + 7 < p.size then some (zeroFrame true p i) else none
  else
    if i + 3 < p.size then some (zeroFrame false p i) else none

/-- Bounds-checked version of the `Read` loop: `none` as soon as any
write would be out of bounds. -/
def zeroFramesChecked (isLeft : Bool) (p : Array Nat) (i n : Nat) : Option (Array Nat) :=
  if i + 8 ≤ n then
    match zeroFrameChecked isLeft p i with
    | some q => zeroFramesChecked isLeft q (i + 8) n
    | none => none
  else some p
termination_by n - i
decreasing_by omega

/-- The result triple of a Go `Read`: the (mutated) buffer, the byte
count `n`, and the error value. -/
structure ReadOut where
  buf : Array Nat
  n : Nat
  err : Option String
deriving DecidableEq, Repr

/-- `SingleChannelStream.Read` (main.go:158-178): `inner` is what the
wrapped `ReadSeeker.Read` produced (filled buffer, count, error); the
filter zeroes the unwanted channel of each complete frame and returns
`n, err` unchanged. -/
def SingleChannelStream.Read (isLeft : Bool) (inner : ReadOut) : ReadOut :=
  { buf := zeroFrames isLeft inner.buf 0 inner.n, n := inner.n, err := inner.err }

/-- The 16-byte buffer of the spec scenario. -/
def sample16 : Array Nat := #[1,2,3,4,5,6,7,8,9,10,11,12,13,14,15,16]

/-- Expected keep-left output for `sample16`. -/
def sample16L : Array Nat := #[1,2,3,4,0,0,0,0,9,10,11,12,0,0,0,0]

/-- Expected keep-right output for `sample16`. -/
def sample16R : Array Nat := #[0,0,0,0,5,6,7,8,0,0,0,0,13,14,15,16]

/-! ## Game state and per-tick update (main.go:43-114)

Go `float64` values are modelled as real numbers; `math.Cos` is `Real.cos`
and `math.Min` is `min` on `ℝ`.  An `*audio.Player` is modelled by the
state the code observes and mutates: its volume (1 for a newly created
player) and whether `Play` was called.  A `nil` pointer is `none`. -/

/-- The observable state of an `*audio.Player` handle. -/
structure Player where
  volume : ℝ
  playing : Bool

/-- The fields of `Game` (main.go:43-57) that the modelled methods touch.
`audioContext != nil` is modelled by the flag `hasAudioContext`. -/
structure Game where
  playerLeft : Option Player
  playerRight : Option Player
  panning : ℝ
  count : Nat
  xpos : ℝ
  hasAudioContext : Bool

/-- The zero-value `&Game{}` built in `main` (main.go:146): nil players,
zero counters. -/
def initialGame : Game :=
  { playerLeft := none, playerRight := none, panning := 0,
    count := 0, xpos := 0, hasAudioContext := false }

/-- `Game.initAudioIfNeeded` (main.go:58-90): returns immediately when
`playerLeft` is already non-nil; otherwise creates the audio context if
needed, builds both players (each wrapping a `SingleChannelStream` over an
infinite loop of the decoded ogg) and calls `Play` on both.  Decode or
player-construction failure is `log.Fatal` (process exit) and has no
in-model representation. -/
def Game.initAudioIfNeeded (g : Game) : Game :=
  if g.playerLeft.isSome then g
  else
    { g with
      hasAudioContext := true
      playerLeft := some { volume := 1, playing := true }
      playerRight := some { volume := 1, playing := true } }

/-- `lerp` (main.go:93-95). -/
noncomputable def lerp (a b t : ℝ) : ℝ := a * (1 - t) + b * t

/-- The radian value `r` computed from the tick counter
(main.go:98): `r := float64(g.count) * ((1.0 / 60.0) * 2 * math.Pi) * 0.1`. -/
noncomputable def rOf (count : Nat) : ℝ :=
  (count : ℝ) * ((1 / 60) * 2 * Real.pi) * 0.1

/-- `g.xpos` as computed in `Game.Update` (main.go:99). -/
noncomputable def xposOf (count : Nat) : ℝ :=
  ((screenWidth : ℝ) / 2) + Real.cos (rOf count) * ((screenWidth : ℝ) / 2)

/-- `g.panning` as computed in `Game.Update` (main.go:100):
`lerp(-1, 1, g.xpos/float64(screenWidth))`. -/
noncomputable def panningOf (count : Nat) : ℝ :=
  lerp (-1) 1 (xposOf count / (screenWidth : ℝ))

/-- `leftVolume` (main.go:108): `math.Min(g.panning*-1+1, 1)`. -/
noncomputable def leftVolume (panning : ℝ) : ℝ := min (panning * (-1) + 1) 1

/-- `rightVolume` (main.go:109): `math.Min(g.panning+1, 1)`. -/
noncomputable def rightVolume (panning : ℝ) : ℝ := min (panning + 1) 1

/-- `player.SetVolume(v)` lifted to a possibly-nil handle. -/
def setVolume (p : Option Player) (v : ℝ) : Option Player :=
  p.map fun pl => { pl with volume := v }

/-- `Game.Update` (main.go:96-114): advance the tick counter, recompute
`xpos` and `panning`, lazily initialise the audio, then set each player's
volume from the linear pan law.  The method always returns `nil` for its
error, so the model returns just the new state. -/
noncomputable def Game.Update (g : Game) : Game :=
  let count := g.count + 1
  let g' := Game.initAudioIfNeeded
    { g with count := count, xpos := xposOf count, panning := panningOf count }
  { g' with
    playerLeft := setVolume g'.playerLeft (leftVolume (panningOf count))
    playerRight := setVolume g'.playerRight (rightVolume (panningOf count)) }

/-! ## Helper lemmas about the filter loop -/

theorem size_zeroFrame (b : Bool) (p : Array Nat) (i : Nat) :
    (zeroFrame b p i).size = p.size := by
  cases b <;> simp [zeroFrame]

theorem size_zeroFrames (b : Bool) (p : Array Nat) (i n : Nat) :
    (zeroFrames b p i n).size = p.size := by
  induction p, i, n using zeroFrames.induct b with
  | case1 p i n h ih => rw [zeroFrames, if_pos h]; rw [ih, size_zeroFrame]
  | case2 p i n h => rw [zeroFrames, if_neg h]

theorem getElem?_setD (a : Array Nat) (k j v : Nat) (hj : j < a.size) :
    (a.setD k v)[j]? = if k = j then some v else a[j]? := by
  by_cases h : k = j
  · subst h
    simp [Array.getElem?_setD_eq a hj]
  · rw [if_neg h]
    unfold Array.setD
    split
    · exact Array.getElem?_set_ne _ _ _ h
    · rfl

theorem zeroFrameL_getElem? (p : Array Nat) (i j : Nat) (hj : j < p.size) :
    (zeroFrame true p i)[j]? =
      if i ≤ j ∧ j < i + 8 ∧ 4 ≤ (j - i) % 8 then some 0 else p[j]? := by
  simp only [zeroFrame, if_true]
  rw [getElem?_setD _ _ _ _ (by simp [hj]), getElem?_setD _ _ _ _ (by simp [hj]),
      getElem?_setD _ _ _ _ (by simp [hj]), getElem?_setD _ _ _ _ hj]
  split_ifs <;> first | rfl | omega

theorem zeroFrameR_getElem? (p : Array Nat) (i j : Nat) (hj : j < p.size) :
    (zeroFrame false p i)[j]? =
      if i ≤ j ∧ j < i + 8 ∧ (j - i) % 8 < 4 then some 0 else p[j]? := by
  simp only [zeroFrame, Bool.false_eq_true, if_false]
  rw [getElem?_setD _ _ _ _ (by simp [hj]), getElem?_setD _ _ _ _ (by simp [hj]),
      getElem?_setD _ _ _ _ (by simp [hj]), getElem?_setD _ _ _ _ hj]
  split_ifs <;> first | rfl | omega

/-- Pointwise description of the keep-left loop: starting at offset `i`,
an index `j` is zeroed exactly when it lies in a complete frame of the
scanned region and is one of the last four bytes of its frame. -/
theorem zeroFramesL_getElem? (p : Array Nat) (i n j : Nat) (hj : j < p.size) :
    (zeroFrames true p i n)[j]? =
      if i ≤ j ∧ j < i + 8 * ((n - i) / 8) ∧ 4 ≤ (j - i) % 8 then some 0 else p[j]? := by
  revert hj
  induction p, i, n using zeroFrames.induct true with
  | case1 p i n h ih =>
    intro hj
    rw [zeroFrames, if_pos h, ih (by rw [size_zeroFrame]; exact hj),
        zeroFrameL_getElem? p i j hj]
    have hd : (n - (i + 8)) / 8 + 1 = (n - i) / 8 := by omega
    split_ifs <;> first | rfl | omega
  | case2 p i n h =>
    intro hj
    rw [zeroFrames, if_neg h, if_neg]
    rintro ⟨h1, h2, h3⟩
    omega

/-- Pointwise description of the keep-right loop. -/
theorem zeroFramesR_getElem? (p : Array Nat) (i n j : Nat) (hj : j < p.size) :
    (zeroFrames false p i n)[j]? =
      if i ≤ j ∧ j < i + 8 * ((n - i) / 8) ∧ (j - i) % 8 < 4 then some 0 else p[j]? := by
  revert hj
  induction p, i, n using zeroFrames.induct false with
  | case1 p i n h ih =>
    intro hj
    rw [zeroFrames, if_pos h, ih (by rw [size_zeroFrame]; exact hj),
        zeroFrameR_getElem? p i j hj]
    have hd : (n - (i + 8)) / 8 + 1 = (n - i) / 8 := by omega
    split_ifs <;> first | rfl | omega
  | case2 p i n h =>
    intro hj
    rw [zeroFrames, if_neg h, if_neg]
    rintro ⟨h1, h2, h3⟩
    omega

/-- Whenever `n` is within the buffer, every write of the loop is in
bounds, so the checked loop succeeds and agrees with the unchecked one. -/
theorem zeroFramesChecked_eq (b : Bool) (p : Array Nat) (i n : Nat) (hn : n ≤ p.size) :
    zeroFramesChecked b p i n = some (zeroFrames b p i n) := by
  revert hn
  induction p, i, n using zeroFrames.induct b with
  | case1 p i n h ih =>
    intro hn
    have hf : zeroFrameChecked b p i = some (zeroFrame b p i) := by
      cases b
      · simp only [zeroFrameChecked, Bool.false_eq_true, if_false]
        rw [if_pos (by omega)]
      · simp only [zeroFrameChecked, if_true]
        rw [if_pos (by omega)]
    rw [zeroFramesChecked, zeroFrames, if_pos h, if_pos h, hf]
    exact ih (by rw [size_zeroFrame]; exact hn)
  | case2 p i n h =>
    intro hn
    rw [zeroFramesChecked, zeroFrames, if_neg h, if_neg h]

end Pan2Players
namespace Pan2Players

/-! ## Claim theorems -/

/-- C1: for every complete 8-byte frame (the `k`-th, at offset `8*k`) in
the byte range returned by a read, the keep-left filter zeroes the output
bytes at frame offsets [4..8) and passes offsets [0..4) through, and the
keep-right filter does the opposite; in particular the 16-byte buffer
`[1..16]` becomes `[1,2,3,4,0,0,0,0,9,10,11,12,0,0,0,0]` under keep-left
and `[0,0,0,0,5,6,7,8,0,0,0,0,13,14,15,16]` under keep-right. -/
theorem keep_filters_frame_bytes :
    (∀ (p : Array Nat) (n k j : Nat), n ≤ p.size → 8 * k + 8 ≤ n → j < 4 →
      ((zeroFrames true p 0 n)[8 * k + 4 + j]? = some 0
        ∧ (zeroFrames true p 0 n)[8 * k + j]? = p[8 * k + j]?)
      ∧ ((zeroFrames false p 0 n)[8 * k + j]? = some 0
        ∧ (zeroFrames false p 0 n)[8 * k + 4 + j]? = p[8 * k + 4 + j]?))
    ∧ zeroFrames true sample16 0 16 = sample16L
    ∧ zeroFrames false sample16 0 16 = sample16R := by
  refine ⟨fun p n k j hn hk hj => ⟨⟨?_, ?_⟩, ?_, ?_⟩, ?_, ?_⟩
  · rw [zeroFramesL_getElem? p 0 n _ (by omega), if_pos (by omega)]
  · rw [zeroFramesL_getElem? p 0 n _ (by omega), if_neg (by omega)]
  · rw [zeroFramesR_getElem? p 0 n _ (by omega), if_pos (by omega)]
  · rw [zeroFramesR_getElem? p 0 n _ (by omega), if_neg (by omega)]
  · simp [zeroFrames, zeroFrame, sample16, sample16L]
  · simp [zeroFrames, zeroFrame, sample16, sample16R]

/-- Witness for C1: the universal part evaluated on the second frame of
the 16-byte sample buffer. -/
theorem keep_filters_frame_bytes_witness :
    ((zeroFrames true sample16 0 16)[8 * 1 + 4 + 2]? = some 0
      ∧ (zeroFrames true sample16 0 16)[8 * 1 + 2]? = sample16[8 * 1 + 2]?)
    ∧ ((zeroFrames false sample16 0 16)[8 * 1 + 2]? = some 0
      ∧ (zeroFrames false sample16 0 16)[8 * 1 + 4 + 2]? = sample16[8 * 1 + 4 + 2]?) :=
  keep_filters_frame_bytes.1 sample16 16 1 2 (by decide) (by decide) (by decide)

/-- C5: the trailing bytes past the last complete frame (indices in
`[8*(n/8), n)`, i.e. the 1-7 leftover bytes when `n` is not a multiple
of 8) are passed through unmodified by both filter variants. -/
theorem trailing_bytes_unmodified (b : Bool) (p : Array Nat) (n j : Nat)
    (hn : n ≤ p.size) (hj1 : 8 * (n / 8) ≤ j) (hj2 : j < n) :
    (zeroFrames b p 0 n)[j]? = p[j]? := by
  cases b
  · rw [zeroFramesR_getElem? p 0 n j (by omega), if_neg (by omega)]
  · rw [zeroFramesL_getElem? p 0 n j (by omega), if_neg (by omega)]

/-- Witness for C5: a 13-byte read from the sample buffer leaves byte 12
(the 5th trailing byte) untouched. -/
theorem trailing_bytes_unmodified_witness :
    (zeroFrames true sample16 0 13)[12]? = sample16[12]? :=
  trailing_bytes_unmodified true sample16 13 12 (by decide) (by decide) (by decide)

/-- C7: the filter returns exactly the byte count and the error value of
the underlying stream's read, whatever they are; it produces no error of
its own. -/
theorem read_propagates_count_and_error (b : Bool) (inner : ReadOut) :
    (SingleChannelStream.Read b inner).n = inner.n
    ∧ (SingleChannelStream.Read b inner).err = inner.err :=
  ⟨rfl, rfl⟩

/-- C9: on every byte of a complete frame, exactly one of the two filter
variants zeroes the byte while the other preserves it, and the byte-wise
sum of the two outputs reconstructs the input. -/
theorem filters_complementary (p : Array Nat) (n j : Nat)
    (hn : n ≤ p.size) (hj : j < 8 * (n / 8)) :
    (((zeroFrames true p 0 n)[j]? = some 0 ∧ (zeroFrames false p 0 n)[j]? = p[j]?)
      ∨ ((zeroFrames true p 0 n)[j]? = p[j]? ∧ (zeroFrames false p 0 n)[j]? = some 0))
    ∧ (zeroFrames true p 0 n).getD j 0 + (zeroFrames false p 0 n).getD j 0
        = p.getD j 0 := by
  have hjp : j < p.size := by omega
  have hL := zeroFramesL_getElem? p 0 n j hjp
  have hR := zeroFramesR_getElem? p 0 n j hjp
  constructor
  · rcases Nat.lt_or_ge (j % 8) 4 with hc | hc
    · right
      rw [hL, hR, if_neg (by omega), if_pos (by omega)]
      exact ⟨rfl, rfl⟩
    · left
      rw [hL, hR, if_pos (by omega), if_neg (by omega)]
      exact ⟨rfl, rfl⟩
  · rw [Array.getD_eq_get?, Array.getD_eq_get?, Array.getD_eq_get?, hL, hR]
    rcases Nat.lt_or_ge (j % 8) 4 with hc | hc
    · rw [if_neg (by omega), if_pos (by omega)]
      simp
    · rw [if_pos (by omega), if_neg (by omega)]
      simp

/-- Witness for C9: byte 5 of the sample buffer is zeroed by keep-left,
preserved by keep-right, and the outputs sum back to the input. -/
theorem filters_complementary_witness :
    (((zeroFrames true sample16 0 16)[5]? = some 0
        ∧ (zeroFrames false sample16 0 16)[5]? = sample16[5]?)
      ∨ ((zeroFrames true sample16 0 16)[5]? = sample16[5]?
        ∧ (zeroFrames false sample16 0 16)[5]? = some 0))
    ∧ (zeroFrames true sample16 0 16).getD 5 0 + (zeroFrames false sample16 0 16).getD 5 0
        = sample16.getD 5 0 :=
  filters_complementary sample16 16 5 (by decide) (by decide)

/-- C10: under the io.Reader contract `n ≤ p.size`, every write of the
filter loop is in bounds (the checked loop succeeds), the buffer size is
unchanged, and every byte at index `≥ n` is left unchanged. -/
theorem read_memory_safe (b : Bool) (p : Array Nat) (n : Nat) (hn : n ≤ p.size) :
    zeroFramesChecked b p 0 n = some (zeroFrames b p 0 n)
    ∧ (zeroFrames b p 0 n).size = p.size
    ∧ ∀ j, n ≤ j → (zeroFrames b p 0 n)[j]? = p[j]? := by
  refine ⟨zeroFramesChecked_eq b p 0 n hn, size_zeroFrames b p 0 n, fun j hj => ?_⟩
  by_cases hjs : j < p.size
  · cases b
    · rw [zeroFramesR_getElem? p 0 n j hjs, if_neg (by omega)]
    · rw [zeroFramesL_getElem? p 0 n j hjs, if_neg (by omega)]
  · rw [Array.getElem?_ge _ (by omega : p.size ≤ j), Array.getElem?_ge]
    rw [size_zeroFrames]
    omega

/-- Witness for C10: a 13-byte read into the 16-byte sample buffer is in
bounds and leaves byte 14 unchanged. -/
theorem read_memory_safe_witness :
    zeroFramesChecked true sample16 0 13 = some (zeroFrames true sample16 0 13)
    ∧ (zeroFrames true sample16 0 13).size = sample16.size
    ∧ (zeroFrames true sample16 0 13)[14]? = sample16[14]? := by
  have h := read_memory_safe true sample16 13 (by decide)
  exact ⟨h.1, h.2.1, h.2.2 14 (by decide)⟩

end Pan2Players
namespace Pan2Players

/-! ## Helper lemmas about the pan computation -/

/-- The pan position simplifies to the cosine of the phase:
`lerp(-1, 1, (w/2 + cos r * w/2) / w) = cos r`. -/
theorem panningOf_eq_cos (count : Nat) : panningOf count = Real.cos (rOf count) := by
  unfold panningOf xposOf lerp screenWidth
  push_cast
  ring

/-- The phase at tick 0 is 0. -/
theorem rOf_zero : rOf 0 = 0 := by
  unfold rOf
  push_cast
  ring

/-- After `initAudioIfNeeded` both handles exist, provided the state
satisfies the program invariant that the two handles are created
together. -/
theorem initAudio_players (g : Game) (h : g.playerRight.isSome = g.playerLeft.isSome) :
    ∃ pl pr, (g.initAudioIfNeeded).playerLeft = some pl
      ∧ (g.initAudioIfNeeded).playerRight = some pr := by
  unfold Game.initAudioIfNeeded
  cases hL : g.playerLeft with
  | none => simp [hL]
  | some pl =>
    rw [hL] at h
    simp only [hL, Option.isSome_some, if_true]
    cases hR : g.playerRight with
    | none => rw [hR] at h; simp at h
    | some pr => exact ⟨pl, pr, rfl, rfl⟩

/-- The source formula `math.Min(p*-1+1, 1)` is `min 1 (1-p)`. -/
theorem leftVolume_eq (p : ℝ) : leftVolume p = min 1 (1 - p) := by
  unfold leftVolume
  have hp : p * (-1) + 1 = 1 - p := by ring
  rw [hp, min_comm]

/-- The source formula `math.Min(p+1, 1)` is `min 1 (1+p)`. -/
theorem rightVolume_eq (p : ℝ) : rightVolume p = min 1 (1 + p) := by
  unfold rightVolume
  rw [add_comm, min_comm]

/-! ## Claim theorems about the per-tick update -/

/-- C2: every update sets the left handle's volume to
`min(1, 1 - panning)` and the right handle's volume to
`min(1, 1 + panning)` (for states satisfying the invariant that both
handles are created together); at pan 0 both gains are 1, at pan 1 the
left gain is 0 and the right gain 1, at pan -1 the left gain is 1 and
the right gain 0. -/
theorem update_applies_pan_law (g : Game)
    (h : g.playerRight.isSome = g.playerLeft.isSome) :
    ((g.Update).playerLeft).map Player.volume
        = some (min 1 (1 - panningOf (g.count + 1)))
    ∧ ((g.Update).playerRight).map Player.volume
        = some (min 1 (1 + panningOf (g.count + 1)))
    ∧ leftVolume 0 = 1 ∧ rightVolume 0 = 1
    ∧ leftVolume 1 = 0 ∧ rightVolume 1 = 1
    ∧ leftVolume (-1) = 1 ∧ rightVolume (-1) = 0 := by
  obtain ⟨pl, pr, hpl, hpr⟩ := initAudio_players
    { g with count := g.count + 1, xpos := xposOf (g.count + 1),
             panning := panningOf (g.count + 1) } h
  refine ⟨?_, ?_, ?_, ?_, ?_, ?_, ?_, ?_⟩
  · simp only [Game.Update]
    rw [hpl]
    simp only [setVolume, Option.map_some']
    rw [leftVolume_eq]
  · simp only [Game.Update]
    rw [hpr]
    simp only [setVolume, Option.map_some']
    rw [rightVolume_eq]
  · rw [leftVolume_eq]; norm_num
  · rw [rightVolume_eq]; norm_num
  · rw [leftVolume_eq]; norm_num
  · rw [rightVolume_eq]; norm_num
  · rw [leftVolume_eq]; norm_num
  · rw [rightVolume_eq]; norm_num

/-- Witness for C2: the pan law applied to the initial game state. -/
theorem update_applies_pan_law_witness :
    ((initialGame.Update).playerLeft).map Player.volume
        = some (min 1 (1 - panningOf 1))
    ∧ ((initialGame.Update).playerRight).map Player.volume
        = some (min 1 (1 + panningOf 1))
    ∧ leftVolume 0 = 1 ∧ rightVolume 0 = 1
    ∧ leftVolume 1 = 0 ∧ rightVolume 1 = 1
    ∧ leftVolume (-1) = 1 ∧ rightVolume (-1) = 0 :=
  update_applies_pan_law initialGame rfl

/-- C3: the panning value written by every update is `panningOf` of the
new tick count, and for every tick count it lies within `[-1, 1]`. -/
theorem panning_within_range :
    (∀ g : Game, (g.Update).panning = panningOf (g.count + 1))
    ∧ ∀ count : Nat, -1 ≤ panningOf count ∧ panningOf count ≤ 1 := by
  constructor
  · intro g
    by_cases h : g.playerLeft.isSome <;>
      simp [Game.Update, Game.initAudioIfNeeded, h]
  · intro count
    rw [panningOf_eq_cos]
    exact ⟨Real.neg_one_le_cos _, Real.cos_le_one _⟩

/-- Counterexample to C4: at tick counter 0 the computed pan position is
not `-1`. -/
theorem pan_at_zero_not_left : ¬ panningOf 0 = -1 := by
  rw [panningOf_eq_cos, rOf_zero, Real.cos_zero]
  norm_num

/-- C4 (amended): at tick counter 0 the phase is 0 and the cosine is +1,
but that puts the horizontal position at the full screen width (640), so
the computed pan position is exactly +1 (rightmost), not -1. -/
theorem pan_at_zero :
    rOf 0 = 0 ∧ Real.cos (rOf 0) = 1 ∧ xposOf 0 = (screenWidth : ℝ)
    ∧ panningOf 0 = 1 := by
  refine ⟨rOf_zero, by rw [rOf_zero, Real.cos_zero], ?_, ?_⟩
  · unfold xposOf screenWidth
    rw [rOf_zero, Real.cos_zero]
    norm_num
  · rw [panningOf_eq_cos, rOf_zero, Real.cos_zero]

/-- C6: the pan position is periodic in the tick counter with period
600 ticks (10 simulated seconds at the fixed 60 ticks per second); over
the real-number model the equality is exact. -/
theorem panning_periodic (t : Nat) : panningOf (t + 600) = panningOf t := by
  have h : rOf (t + 600) = rOf t + 2 * Real.pi := by
    unfold rOf
    push_cast
    ring
  rw [panningOf_eq_cos, panningOf_eq_cos, h, Real.cos_add_two_pi]

/-- C8: audio initialization is lazy and idempotent: on a state whose
handles already exist it changes nothing; on a state with no handles it
constructs both (freshly playing, volume 1), and the update that invokes
it therefore ends with both handles present; running it twice equals
running it once. -/
theorem initAudio_lazy_idempotent (g : Game) :
    (g.playerLeft.isSome → g.initAudioIfNeeded = g)
    ∧ (g.playerLeft = none →
        (g.initAudioIfNeeded).playerLeft = some { volume := 1, playing := true }
        ∧ (g.initAudioIfNeeded).playerRight = some { volume := 1, playing := true }
        ∧ ((g.Update).playerLeft).isSome ∧ ((g.Update).playerRight).isSome)
    ∧ (g.initAudioIfNeeded).initAudioIfNeeded = g.initAudioIfNeeded := by
  refine ⟨fun h => ?_, fun h => ?_, ?_⟩
  · unfold Game.initAudioIfNeeded
    rw [if_pos h]
  · simp [Game.initAudioIfNeeded, Game.Update, setVolume, h]
  · by_cases h : g.playerLeft.isSome
    · unfold Game.initAudioIfNeeded
      rw [if_pos h, if_pos h]
    · unfold Game.initAudioIfNeeded
      rw [if_neg h]
      simp

/-- Witness for C8: initialization from the zero-value game state. -/
theorem initAudio_lazy_idempotent_witness :
    ((initialGame.initAudioIfNeeded).playerLeft
        = some { volume := 1, playing := true }
      ∧ (initialGame.initAudioIfNeeded).playerRight
        = some { volume := 1, playing := true }
      ∧ ((initialGame.Update).playerLeft).isSome
      ∧ ((initialGame.Update).playerRight).isSome)
    ∧ (initialGame.initAudioIfNeeded).initAudioIfNeeded
        = initialGame.initAudioIfNeeded :=
  ⟨(initAudio_lazy_idempotent initialGame).2.1 rfl,
   (initAudio_lazy_idempotent initialGame).2.2⟩

end Pan2Players
